import Mathlib

/-!
Verification of the synchronization-primitive library (Rust Atomics and Locks
examples): shallow embedding of the atomic protocols of Arc/Weak, Mutex,
RwLock, Condvar and the one-shot channels, with theorems checking the
natural-language specification against the code.

Machine integers are modelled as Nat with explicit wraparound (% 2^64 for
usize, % 2^32 for u32) where the code can overflow.  Each atomic operation of
interest is recorded as an event carrying the memory ordering used by the
source, so ordering statements of the spec are checkable.
-/

namespace RustAtomics

/-- Memory orderings of the Rust atomics API, as written in the source. -/
inductive MemOrder
  | relaxed
  | acquire
  | release
  | acqrel
  | seqcst
deriving DecidableEq, Repr

/-- usize::MAX on a 64-bit target. -/
def USIZE_MAX : Nat := 2 ^ 64 - 1

/-- u32 modulus. -/
def U32_MOD : Nat := 2 ^ 32

/-! ## Arc / Weak (src/ch06/src/arc_optimization.rs) -/

namespace ArcOpt

/-- The two counters of the control block `ArcData<T>`:
`data_ref_count` is the strong (Arc) count, `alloc_ref_count` the combined
allocation (strong + weak) count. -/
structure ArcData where
  data_ref_count : Nat
  alloc_ref_count : Nat
deriving DecidableEq, Repr

/-- Atomic operations performed by `Arc::get_mut` on the control block,
with the memory orderings written in the source. -/
inductive AEvent
  | casAlloc (expectedv newv seen : Nat) (okOrd failOrd : MemOrder) (ok : Bool)
  | loadStrong (seen : Nat) (ord : MemOrder)
  | storeAlloc (v : Nat) (ord : MemOrder)
  | fenceAcquire
deriving DecidableEq, Repr

/-- Result of `Arc::get_mut`: final control-block state, whether a mutable
reference was returned, and the trace of atomic operations performed. -/
structure GetMutResult where
  state : ArcData
  ret : Option Unit
  trace : List AEvent
deriving DecidableEq, Repr

/-- `Arc::get_mut` (arc_optimization.rs lines 37-61):
CAS `alloc_ref_count` from 1 to `usize::MAX` (Acquire / Relaxed); on failure
return None.  Under that lock, load `data_ref_count` (Relaxed) and compare
with 1, store `alloc_ref_count` back to 1 (Release); if the strong count was
not 1 return None, otherwise an Acquire fence and Some. -/
def get_mut (s : ArcData) : GetMutResult :=
  if s.alloc_ref_count ≠ 1 then
    { state := s
      ret := none
      trace := [.casAlloc 1 USIZE_MAX s.alloc_ref_count .acquire .relaxed false] }
  else if s.data_ref_count = 1 then
    { state := { s with alloc_ref_count := 1 }
      ret := some ()
      trace := [.casAlloc 1 USIZE_MAX s.alloc_ref_count .acquire .relaxed true,
                .loadStrong s.data_ref_count .relaxed,
                .storeAlloc 1 .release,
                .fenceAcquire] }
  else
    { state := { s with alloc_ref_count := 1 }
      ret := none
      trace := [.casAlloc 1 USIZE_MAX s.alloc_ref_count .acquire .relaxed true,
                .loadStrong s.data_ref_count .relaxed,
                .storeAlloc 1 .release] }

/-- Outcome of `Weak::upgrade`. -/
inductive UpgradeRet
  | upgraded
  | noneReturned
  | panicked
deriving DecidableEq, Repr

/-- `Weak::upgrade` (arc_optimization.rs lines 134-151), linearized at the
decisive atomic step of its CAS retry loop: observing `data_ref_count = n`,
it returns None when n = 0, asserts n < usize::MAX, and otherwise its
successful CAS replaces n by n + 1 and returns Some. -/
def upgrade (n : Nat) : Nat × UpgradeRet :=
  if n = 0 then (n, .noneReturned)
  else if n < USIZE_MAX then (n + 1, .upgraded)
  else (n, .panicked)

/-- Transitions of the strong count `data_ref_count`.  A live `Arc` handle
contributes exactly 1 to the strong count, so `Clone for Arc`
(arc_optimization.rs lines 99-107) and `Drop for Arc` (lines 109-123), which
require a live handle (`&self` / `&mut self`), can only run when the count is
positive; `Weak::upgrade` increments only from a nonzero observed value.
`get_mut` only loads the strong count. -/
inductive StrongStep : Nat → Nat → Prop
  | cloneArc (n : Nat) : 0 < n → StrongStep n (n + 1)
  | dropArc (n : Nat) : 0 < n → StrongStep n (n - 1)
  | upgradeStep (n : Nat) : StrongStep n (upgrade n).1

/-- An Arc handle is a pointer to a control block. -/
structure ArcHandle where
  ptr : Nat
deriving DecidableEq, Repr

/-- `Clone for Arc` (arc_optimization.rs lines 99-107): `fetch_add(1, Relaxed)`
on `data_ref_count`, then `std::process::abort()` when the pre-increment
value exceeded `usize::MAX / 2`.  Returns the new handle (same pointer), the
new count (wrapping as `fetch_add` does), and whether the process aborted. -/
def clone (a : ArcHandle) (count : Nat) : ArcHandle × Nat × Bool :=
  (⟨a.ptr⟩, (count + 1) % 2 ^ 64, decide (count > USIZE_MAX / 2))

end ArcOpt

/-! ## Mutex (src/ch09/src/mutex_spin.rs) -/

namespace MutexSpin

/-- Atomic operations performed on the mutex `state` word, with the memory
orderings written in the source. -/
inductive MEvent
  | load (seen : Nat) (ord : MemOrder)
  | cas (expectedv newv seen : Nat) (okOrd failOrd : MemOrder) (ok : Bool)
  | swap (newv seen : Nat) (ord : MemOrder)
  | futexWait (expected : Nat)
deriving DecidableEq, Repr

/-- The spin loop of `lock_contended` (mutex_spin.rs lines 36-40):
`while state.load(Relaxed) == 1 && spin_count < 100 { spin_count += 1; ... }`.
The schedule lists the values the state word holds at successive atomic
accesses (other threads may change it at any time).  Returns the loads
performed and the unconsumed rest of the schedule; every evaluation of the
loop condition performs one Relaxed load, including the final failing one. -/
def spin_wait : Nat → List Nat → List MEvent × List Nat
  | _, [] => ([], [])
  | spin_count, seen :: rest =>
    if seen = 1 ∧ spin_count < 100 then
      (MEvent.load seen .relaxed :: (spin_wait (spin_count + 1) rest).1,
       (spin_wait (spin_count + 1) rest).2)
    else ([MEvent.load seen .relaxed], rest)

/-- The fallback loop of `lock_contended` (mutex_spin.rs lines 44-46):
`while state.swap(2, Acquire) != 0 { wait(state, 2) }`. -/
def swap_park : List Nat → List MEvent
  | [] => []
  | seen :: rest =>
    if seen ≠ 0 then
      MEvent.swap 2 seen .acquire :: MEvent.futexWait 2 :: swap_park rest
    else [MEvent.swap 2 seen .acquire]

/-- `lock_contended` (mutex_spin.rs lines 34-47): spin while the state reads 1
(at most 100 iterations), then retry `compare_exchange(0, 1, Acquire, Relaxed)`
once, then fall back to the swap-and-park loop. -/
def lock_contended (sched : List Nat) : List MEvent :=
  match (spin_wait 0 sched).2 with
  | [] => (spin_wait 0 sched).1
  | seen :: r =>
    if seen = 0 then
      (spin_wait 0 sched).1 ++ [MEvent.cas 0 1 seen .acquire .relaxed true]
    else
      (spin_wait 0 sched).1 ++
        MEvent.cas 0 1 seen .acquire .relaxed false :: swap_park r

/-- `Mutex::lock` (mutex_spin.rs lines 25-31): fast-path
`compare_exchange(0, 1, Acquire, Relaxed)`; on failure `lock_contended`. -/
def lock : List Nat → List MEvent
  | [] => []
  | seen :: rest =>
    if seen = 0 then [MEvent.cas 0 1 seen .acquire .relaxed true]
    else MEvent.cas 0 1 seen .acquire .relaxed false :: lock_contended rest

/-- Modelled from the claim C2 wording (not from the source): on fast-path
failure the lock "spins a small bounded number of iterations retrying the
same CAS, and then falls back to swapping the state to LockedWithWaiters(2)
and parking".  So each of the bounded spin iterations performs the
CAS 0 → 1 itself. -/
def lock_contended_claim : Nat → List Nat → List MEvent
  | _, [] => []
  | spin_count, seen :: rest =>
    if spin_count < 100 then
      if seen = 0 then [MEvent.cas 0 1 seen .acquire .relaxed true]
      else MEvent.cas 0 1 seen .acquire .relaxed false ::
        lock_contended_claim (spin_count + 1) rest
    else swap_park (seen :: rest)

/-- Whether an event is a compare-exchange. -/
def isCas : MEvent → Bool
  | MEvent.cas _ _ _ _ _ _ => true
  | _ => false

/-- Whether an event is a futex wait (a park). -/
def isPark : MEvent → Bool
  | MEvent.futexWait _ => true
  | _ => false

/-- Whether an event is a swap that observed a nonzero value. -/
def isNonzeroSwap : MEvent → Bool
  | MEvent.swap _ seen _ => seen ≠ 0
  | _ => false

/-- Writes performed on the mutex state word, from any current value s:
`Mutex::new` starts at 0 (line 20); `compare_exchange(0, 1, ..)` in `lock`
(line 26) and `lock_contended` (line 41) writes 1 only from 0;
`swap(2, Acquire)` in `lock_contended` (line 44) writes 2; the guard's drop
`swap(0, Release)` (line 71) writes 0; loads do not write. -/
inductive MutexStep : Nat → Nat → Prop
  | lockCas : MutexStep 0 1
  | parkSwap (s : Nat) : MutexStep s 2
  | unlockSwap (s : Nat) : MutexStep s 0

end MutexSpin

/-! ## RwLock (src/ch09/src/rwlock_avoid_writer_starvation.rs) -/

namespace RwLockAWS

/-- Atomic operations performed by `Drop for ReadGuard`, with the memory
orderings written in the source. -/
inductive RwEvent
  | fetchSubState (amount : Nat) (ord : MemOrder) (seen : Nat)
  | fetchAddWake (amount : Nat) (ord : MemOrder) (seen : Nat)
  | wakeOne
deriving DecidableEq, Repr

/-- Result of dropping a `ReadGuard`: the new state word, the new
writer-wake counter, whether `wake_one` was called, and the event trace. -/
structure ReadDropResult where
  state : Nat
  writer_wake_counter : Nat
  wake_one_called : Bool
  trace : List RwEvent
deriving DecidableEq, Repr

/-- `Drop for ReadGuard` (rwlock_avoid_writer_starvation.rs lines 92-101):
`fetch_sub(2, Release)` on the state (wrapping u32 arithmetic); only when the
pre-decrement value was 3, `fetch_add(1, Release)` on the writer-wake counter
followed by `wake_one` on it. -/
def read_guard_drop (s w : Nat) : ReadDropResult :=
  if s = 3 then
    { state := (s + (U32_MOD - 2)) % U32_MOD
      writer_wake_counter := (w + 1) % U32_MOD
      wake_one_called := true
      trace := [.fetchSubState 2 .release s, .fetchAddWake 1 .release w, .wakeOne] }
  else
    { state := (s + (U32_MOD - 2)) % U32_MOD
      writer_wake_counter := w
      wake_one_called := false
      trace := [.fetchSubState 2 .release s] }

end RwLockAWS

/-! ## Condvar (src/ch09/src/condvar_opt.rs) -/

namespace CondvarOpt

/-- The steps of `Condvar::wait`, in the order the source performs them. -/
inductive CEvent
  | fetchAddWaiters (ord : MemOrder)
  | loadCounter (seen : Nat) (ord : MemOrder)
  | unlockMutex
  | futexWait (expected : Nat) (blocked : Bool)
  | fetchSubWaiters (ord : MemOrder)
  | relockMutex
deriving DecidableEq, Repr

/-- Futex semantics of `wait(addr, expected)`: the call blocks only if the
value at the address still equals the expected value; otherwise it returns
immediately. -/
def futexWaitBlocks (current expected : Nat) : Bool :=
  current == expected

/-- `Condvar::wait` (condvar_opt.rs lines 35-50): increment `num_waiters`
(Relaxed); load the generation `counter` (Relaxed), observing
`counterAtLoad`; extract the mutex from the guard and drop the guard
(releasing the lock); `wait(&self.counter, counter_value)`, where the counter
holds `counterAtPark` by the time the futex examines it; decrement
`num_waiters` (Relaxed); reacquire the mutex. -/
def condvar_wait (counterAtLoad counterAtPark : Nat) : List CEvent :=
  [ .fetchAddWaiters .relaxed,
    .loadCounter counterAtLoad .relaxed,
    .unlockMutex,
    .futexWait counterAtLoad (futexWaitBlocks counterAtPark counterAtLoad),
    .fetchSubWaiters .relaxed,
    .relockMutex ]

end CondvarOpt

/-! ## One-shot channel, non-parking variant (src/ch05/src/oneshot_channel.rs) -/

namespace OneshotChannel

/-- How a call dies: a panic (unwind with a message) or a process abort. -/
inductive Fatality
  | panicMsg (msg : String)
  | processAbort
deriving DecidableEq, Repr

/-- Outcome of `Channel::receive`. -/
inductive RecvResult (α : Type)
  | fatal (f : Fatality)
  | ok (msg : Option α)
deriving DecidableEq, Repr

/-- `Channel<T>` (oneshot_channel.rs lines 6-11): message slot (a
`MaybeUninit`, modelled as an Option), the `in_use` flag and the `ready`
flag. -/
structure Channel (α : Type) where
  message : Option α
  in_use : Bool
  ready : Bool
deriving DecidableEq, Repr

/-- `Channel::new` (oneshot_channel.rs lines 17-23). -/
def Channel.new {α : Type} : Channel α :=
  ⟨none, false, false⟩

/-- Atomic operations of `receive`. -/
inductive ChEvent
  | swapReady (newv seen : Bool) (ord : MemOrder)
  | readMessage
deriving DecidableEq, Repr

/-- `Channel::receive` (oneshot_channel.rs lines 40-46):
`if !self.ready.swap(false, Acquire) { panic!("no message available!") }`,
otherwise read the message out of the slot. -/
def receive {α : Type} (c : Channel α) : Channel α × RecvResult α × List ChEvent :=
  let seen := c.ready
  let c2 := { c with ready := false }
  if !seen then
    (c2, .fatal (.panicMsg "no message available!"), [.swapReady false seen .acquire])
  else
    (c2, .ok c.message, [.swapReady false seen .acquire, .readMessage])

end OneshotChannel

/-! ## One-shot channel, parking variant (src/ch05/src/oneshot_channel_nonblocking.rs) -/

namespace OneshotChannelNB

/-- `Channel<T>` (oneshot_channel_nonblocking.rs lines 9-12): message slot
and `ready` flag. -/
structure Channel (α : Type) where
  message : Option α
  ready : Bool
deriving DecidableEq, Repr

/-- `Channel::new` (oneshot_channel_nonblocking.rs lines 17-22). -/
def Channel.new {α : Type} : Channel α :=
  ⟨none, false⟩

/-- `Drop for Channel` (oneshot_channel_nonblocking.rs lines 45-51): the
message destructor runs iff the `ready` flag is set.  Returns the list of
values whose destructor ran. -/
def Channel.dropDestructs {α : Type} (c : Channel α) : List α :=
  if c.ready then c.message.toList else []

/-- `Channel::split` (oneshot_channel_nonblocking.rs lines 29-43):
`*self = Self::new()` overwrites the channel with a fresh one, running the
old channel's Drop; the returned Sender and Receiver borrow the fresh
channel.  Returns the fresh channel and the destructor runs of the old. -/
def Channel.split {α : Type} (c : Channel α) : Channel α × List α :=
  (Channel.new, c.dropDestructs)

end OneshotChannelNB

/-! ## Theorems -/

/-- C1: Arc::get_mut follows exactly this protocol: it CASes the allocation
count from 1 to the sentinel usize::MAX and returns None if that CAS fails;
under that lock it checks whether the strong count equals 1, stores the
allocation count back to 1, and returns Some (after an acquire fence) if and
only if the strong-count check passed. -/
theorem arc_get_mut_protocol (s : ArcOpt.ArcData) :
    ((ArcOpt.get_mut s).ret = some () ↔ s.alloc_ref_count = 1 ∧ s.data_ref_count = 1)
  ∧ (s.alloc_ref_count ≠ 1 →
      (ArcOpt.get_mut s).ret = none ∧
      (ArcOpt.get_mut s).trace =
        [.casAlloc 1 USIZE_MAX s.alloc_ref_count .acquire .relaxed false] ∧
      (ArcOpt.get_mut s).state = s)
  ∧ (s.alloc_ref_count = 1 →
      (ArcOpt.get_mut s).trace =
        [.casAlloc 1 USIZE_MAX 1 .acquire .relaxed true,
         .loadStrong s.data_ref_count .relaxed,
         .storeAlloc 1 .release] ++
        (if s.data_ref_count = 1 then [ArcOpt.AEvent.fenceAcquire] else []) ∧
      ((ArcOpt.get_mut s).ret = some () ↔ s.data_ref_count = 1)) := by
  by_cases h1 : s.alloc_ref_count = 1 <;> by_cases h2 : s.data_ref_count = 1 <;>
    simp [ArcOpt.get_mut, h1, h2]

theorem arc_get_mut_protocol_witness :
    (ArcOpt.get_mut ⟨1, 1⟩).ret = some ()
  ∧ (ArcOpt.get_mut ⟨2, 1⟩).ret ≠ some () :=
  ⟨(arc_get_mut_protocol ⟨1, 1⟩).1.mpr ⟨rfl, rfl⟩,
   fun hsome => absurd ((arc_get_mut_protocol ⟨2, 1⟩).1.mp hsome).2 (by decide)⟩

/-- C8: Arc::get_mut never leaves the allocation count at the sentinel: on
every return path where the initial CAS from 1 to usize::MAX succeeded (the
Some path and the None path taken when the strong count is not 1), the
allocation count is stored back to 1 before get_mut returns. -/
theorem arc_get_mut_restores_alloc (s : ArcOpt.ArcData) (h : s.alloc_ref_count = 1) :
    (ArcOpt.get_mut s).state.alloc_ref_count = 1
  ∧ ArcOpt.AEvent.storeAlloc 1 .release ∈ (ArcOpt.get_mut s).trace
  ∧ (ArcOpt.get_mut s).state.alloc_ref_count ≠ USIZE_MAX := by
  have hne : (1 : Nat) ≠ USIZE_MAX := by decide
  by_cases h2 : s.data_ref_count = 1 <;> simp [ArcOpt.get_mut, h, h2, hne]

theorem arc_get_mut_restores_alloc_witness :
    (ArcOpt.get_mut ⟨5, 1⟩).state.alloc_ref_count = 1
  ∧ ArcOpt.AEvent.storeAlloc 1 .release ∈ (ArcOpt.get_mut ⟨5, 1⟩).trace
  ∧ (ArcOpt.get_mut ⟨5, 1⟩).state.alloc_ref_count ≠ USIZE_MAX :=
  arc_get_mut_restores_alloc ⟨5, 1⟩ rfl

/-- Any single strong-count transition out of 0 stays at 0. -/
lemma strongStep_from_zero {k : Nat} (h : ArcOpt.StrongStep 0 k) : k = 0 := by
  cases h with
  | cloneArc h0 => exact absurd h0 (lt_irrefl 0)
  | dropArc h0 => exact absurd h0 (lt_irrefl 0)
  | upgradeStep => simp [ArcOpt.upgrade]

/-- Once the strong count has reached 0, it stays 0 under every operation. -/
lemma strong_reachable_zero {m : Nat}
    (h : Relation.ReflTransGen ArcOpt.StrongStep 0 m) : m = 0 := by
  induction h with
  | refl => rfl
  | tail _ hstep ih =>
    subst ih
    exact strongStep_from_zero hstep

/-- C3: Weak::upgrade increments the strong count only while the observed
strong count is nonzero, returning None exactly when it observes zero; and
once the strong count has reached zero, it stays zero under every operation,
so every subsequent upgrade returns None. -/
theorem weak_upgrade_none_monotone (n m : Nat)
    (hm : Relation.ReflTransGen ArcOpt.StrongStep 0 m) :
    ((ArcOpt.upgrade n).2 = .noneReturned ↔ n = 0)
  ∧ (n ≠ 0 → n < USIZE_MAX → ArcOpt.upgrade n = (n + 1, .upgraded))
  ∧ m = 0 ∧ (ArcOpt.upgrade m).2 = .noneReturned := by
  have hm0 : m = 0 := strong_reachable_zero hm
  subst hm0
  refine ⟨?_, ?_, rfl, by simp [ArcOpt.upgrade]⟩
  · by_cases h : n = 0 <;> by_cases h2 : n < USIZE_MAX <;>
      simp [ArcOpt.upgrade, h, h2]
  · intro h h2
    simp [ArcOpt.upgrade, h, h2]

theorem weak_upgrade_none_monotone_witness :
    ArcOpt.upgrade 1 = (2, .upgraded)
  ∧ (ArcOpt.upgrade 0).2 = .noneReturned :=
  ⟨(weak_upgrade_none_monotone 1 0 Relation.ReflTransGen.refl).2.1
      (by decide) (by decide),
   (weak_upgrade_none_monotone 1 0 Relation.ReflTransGen.refl).2.2.2⟩

/-- C4: Clone for Arc increments the strong count (relaxed fetch_add) and
aborts the process iff the pre-increment count exceeds usize::MAX / 2; for
every clone where the count is at or below that threshold, clone returns a
handle to the same control block, the count becomes count + 1, and no abort
occurs. -/
theorem arc_clone_overflow_guard (a : ArcOpt.ArcHandle) (n : Nat) :
    ((ArcOpt.clone a n).2.2 = true ↔ USIZE_MAX / 2 < n)
  ∧ (n ≤ USIZE_MAX / 2 → ArcOpt.clone a n = (⟨a.ptr⟩, n + 1, false))
  ∧ (ArcOpt.clone a n).1 = ⟨a.ptr⟩ := by
  refine ⟨by simp [ArcOpt.clone], ?_, rfl⟩
  intro hle
  rw [show USIZE_MAX / 2 = 9223372036854775807 from by decide] at hle
  have hmod : (n + 1) % 2 ^ 64 = n + 1 := Nat.mod_eq_of_lt (by
    rw [show (2 : Nat) ^ 64 = 18446744073709551616 from by norm_num]
    omega)
  have habort : ¬ (USIZE_MAX / 2 < n) := by
    rw [show USIZE_MAX / 2 = 9223372036854775807 from by decide]
    omega
  simp only [ArcOpt.clone, Prod.mk.injEq]
  exact ⟨trivial, hmod, by simp [habort]⟩

theorem arc_clone_overflow_guard_witness :
    ArcOpt.clone ⟨5⟩ 1 = (⟨5⟩, 2, false) :=
  (arc_clone_overflow_guard ⟨5⟩ 1).2.1 (by decide)

/-- C5: dropping a ReadGuard decrements the RwLock state by 2 with release
ordering, and it bumps the writer-wake counter and wakes one writer if and
only if the pre-decrement state was 3 (so the resulting state is 1: zero
readers remain, a writer is waiting); in every other case no counter bump
and no wake call is performed. -/
theorem rwlock_read_guard_drop_wake (s w : Nat) (hs : s < U32_MOD) (hw : w < U32_MOD) :
    ((RwLockAWS.read_guard_drop s w).wake_one_called = true ↔ s = 3)
  ∧ (s = 3 → RwLockAWS.read_guard_drop s w =
      { state := 1
        writer_wake_counter := (w + 1) % U32_MOD
        wake_one_called := true
        trace := [.fetchSubState 2 .release 3, .fetchAddWake 1 .release w, .wakeOne] })
  ∧ (s ≠ 3 →
      (RwLockAWS.read_guard_drop s w).writer_wake_counter = w ∧
      (RwLockAWS.read_guard_drop s w).wake_one_called = false ∧
      (RwLockAWS.read_guard_drop s w).trace = [.fetchSubState 2 .release s])
  ∧ (2 ≤ s → (RwLockAWS.read_guard_drop s w).state = s - 2)
  ∧ ((RwLockAWS.read_guard_drop s w).writer_wake_counter ≠ w ↔ s = 3) := by
  have hM : U32_MOD = 4294967296 := by norm_num [U32_MOD]
  have hwinc : (w + 1) % U32_MOD ≠ w := by
    rw [hM] at hw ⊢
    omega
  refine ⟨?_, ?_, ?_, ?_, ?_⟩
  · by_cases h3 : s = 3 <;> simp [RwLockAWS.read_guard_drop, h3]
  · intro h3
    subst h3
    simp [RwLockAWS.read_guard_drop, hM]
  · intro h3
    simp [RwLockAWS.read_guard_drop, h3]
  · intro h2
    have hst : (s + (U32_MOD - 2)) % U32_MOD = s - 2 := by
      rw [hM] at hs ⊢
      omega
    by_cases h3 : s = 3
    · rw [h3] at hst ⊢
      simp [RwLockAWS.read_guard_drop, hst]
    · simp [RwLockAWS.read_guard_drop, h3, hst]
  · by_cases h3 : s = 3 <;> simp [RwLockAWS.read_guard_drop, h3, hwinc]

theorem rwlock_read_guard_drop_wake_witness :
    (RwLockAWS.read_guard_drop 3 7).wake_one_called = true
  ∧ (RwLockAWS.read_guard_drop 5 7).wake_one_called = false :=
  ⟨(rwlock_read_guard_drop_wake 3 7 (by decide) (by decide)).1.mpr rfl,
   ((rwlock_read_guard_drop_wake 5 7 (by decide) (by decide)).2.2.1 (by decide)).2.1⟩

/-- C6: Condvar::wait captures the generation counter (index 1 of its step
trace) strictly before releasing the lock (index 2), parks on the captured
value (index 3) and finally reacquires the mutex (last step); and when a
notify increments the counter between release and park, the futex sees a
changed value and the park call does not block. -/
theorem condvar_wait_order_lost_wakeup (c p : Nat) (hc : c < U32_MOD) :
    ((CondvarOpt.condvar_wait c p)[1]? = some (.loadCounter c .relaxed)
  ∧ (CondvarOpt.condvar_wait c p)[2]? = some .unlockMutex
  ∧ (CondvarOpt.condvar_wait c p)[3]? =
      some (.futexWait c (CondvarOpt.futexWaitBlocks p c))
  ∧ (CondvarOpt.condvar_wait c p)[5]? = some .relockMutex
  ∧ (CondvarOpt.condvar_wait c p).length = 6)
  ∧ (p = (c + 1) % U32_MOD →
      CondvarOpt.CEvent.futexWait c false ∈ CondvarOpt.condvar_wait c p) := by
  refine ⟨⟨rfl, rfl, rfl, rfl, rfl⟩, ?_⟩
  intro hp
  have hM : U32_MOD = 4294967296 := by norm_num [U32_MOD]
  have hne : p ≠ c := by
    rw [hp, hM]
    rw [hM] at hc
    omega
  have hblocks : CondvarOpt.futexWaitBlocks p c = false := by
    simp [CondvarOpt.futexWaitBlocks, hne]
  rw [show CondvarOpt.CEvent.futexWait c false =
        CondvarOpt.CEvent.futexWait c (CondvarOpt.futexWaitBlocks p c) from by
      rw [hblocks]]
  simp [CondvarOpt.condvar_wait]

theorem condvar_wait_order_lost_wakeup_witness :
    CondvarOpt.CEvent.futexWait 0 false ∈ CondvarOpt.condvar_wait 0 1 :=
  (condvar_wait_order_lost_wakeup 0 1 (by decide)).2 (by decide)

/-- C7 counterexample: receiving from the non-parking channel with no message
ready panics with "no message available!"; a panic is not a process abort,
so the claim that the call aborts is false. -/
theorem channel_receive_abort_counterexample :
    (OneshotChannel.receive
        (OneshotChannel.Channel.new : OneshotChannel.Channel Nat)).2.1 =
      OneshotChannel.RecvResult.fatal (.panicMsg "no message available!")
  ∧ OneshotChannel.Fatality.panicMsg "no message available!" ≠
      OneshotChannel.Fatality.processAbort :=
  ⟨rfl, by simp⟩

/-- C7 amended: in the non-parking channel variant, calling receive when no
message is ready (the readiness flag is false at the acquire swap) panics
with "no message available!" (it never aborts the process); when a message
is ready, receive swaps the readiness flag to false with acquire ordering
and returns the stored message. -/
theorem channel_receive_panics {α : Type} (c : OneshotChannel.Channel α) :
    ((OneshotChannel.receive c).2.1 =
        .fatal (.panicMsg "no message available!") ↔ c.ready = false)
  ∧ (c.ready = true → (OneshotChannel.receive c).2.1 = .ok c.message)
  ∧ (OneshotChannel.receive c).1.ready = false
  ∧ ((OneshotChannel.receive c).2.2.head? =
      some (.swapReady false c.ready .acquire))
  ∧ (OneshotChannel.receive c).2.1 ≠ .fatal OneshotChannel.Fatality.processAbort := by
  by_cases hr : c.ready <;> simp [OneshotChannel.receive, hr]

theorem channel_receive_panics_witness :
    (OneshotChannel.receive
        (⟨some 7, true, true⟩ : OneshotChannel.Channel Nat)).2.1 =
      OneshotChannel.RecvResult.ok (some 7) :=
  (channel_receive_panics ⟨some 7, true, true⟩).2.1 rfl

/-- C9: Channel::split on a channel still holding an unconsumed message
(readiness flag true) runs that message's destructor exactly once via the
overwrite with a fresh channel, and after split the Sender/Receiver see a
channel whose readiness flag is false and whose slot is empty. -/
theorem channel_split_drop_once {α : Type} (c : OneshotChannelNB.Channel α) (m : α)
    (hr : c.ready = true) (hm : c.message = some m) :
    (OneshotChannelNB.Channel.split c).2 = [m]
  ∧ (OneshotChannelNB.Channel.split c).2.length = 1
  ∧ (OneshotChannelNB.Channel.split c).1.ready = false
  ∧ (OneshotChannelNB.Channel.split c).1.message = none := by
  simp [OneshotChannelNB.Channel.split, OneshotChannelNB.Channel.dropDestructs,
    OneshotChannelNB.Channel.new, hr, hm]

theorem channel_split_drop_once_witness :
    (OneshotChannelNB.Channel.split
        (⟨some 3, true⟩ : OneshotChannelNB.Channel Nat)).2 = [3]
  ∧ (OneshotChannelNB.Channel.split
        (⟨some 3, true⟩ : OneshotChannelNB.Channel Nat)).2.length = 1
  ∧ (OneshotChannelNB.Channel.split
        (⟨some 3, true⟩ : OneshotChannelNB.Channel Nat)).1.ready = false
  ∧ (OneshotChannelNB.Channel.split
        (⟨some 3, true⟩ : OneshotChannelNB.Channel Nat)).1.message = none :=
  channel_split_drop_once ⟨some 3, true⟩ 3 rfl rfl

/-- Every event of the spin phase is a relaxed load. -/
lemma spin_wait_loads (k : Nat) (sched : List Nat) :
    ∀ e ∈ (MutexSpin.spin_wait k sched).1, ∃ v, e = MutexSpin.MEvent.load v .relaxed := by
  induction sched generalizing k with
  | nil =>
    intro e he
    simp [MutexSpin.spin_wait] at he
  | cons a l ih =>
    intro e he
    by_cases hc : a = 1 ∧ k < 100
    · simp only [MutexSpin.spin_wait, if_pos hc, List.mem_cons] at he
      rcases he with he | he
      · exact ⟨a, he⟩
      · exact ih (k + 1) e he
    · simp only [MutexSpin.spin_wait, if_neg hc, List.mem_cons,
        List.not_mem_nil, or_false] at he
      exact ⟨a, he⟩

/-- Every spin-phase load except possibly the final one observed the value 1
(the loop condition is "observed 1 and fewer than 100 iterations"). -/
lemma spin_wait_dropLast (k : Nat) (sched : List Nat) :
    ∀ e ∈ (MutexSpin.spin_wait k sched).1.dropLast,
      e = MutexSpin.MEvent.load 1 .relaxed := by
  induction sched generalizing k with
  | nil =>
    intro e he
    simp [MutexSpin.spin_wait] at he
  | cons a l ih =>
    intro e he
    by_cases hc : a = 1 ∧ k < 100
    · simp only [MutexSpin.spin_wait, if_pos hc] at he
      cases hrec : (MutexSpin.spin_wait (k + 1) l).1 with
      | nil =>
        rw [hrec] at he
        simp at he
      | cons b t =>
        rw [hrec, List.dropLast_cons₂, List.mem_cons] at he
        rcases he with he | he
        · rw [he, hc.1]
        · have h2 := ih (k + 1) e
          rw [hrec] at h2
          exact h2 he
    · simp only [MutexSpin.spin_wait, if_neg hc, List.dropLast_single,
        List.not_mem_nil] at he

/-- The spin phase performs at most 101 loads (100 loop iterations plus the
final failing condition check). -/
lemma spin_wait_length (k : Nat) (sched : List Nat) :
    (MutexSpin.spin_wait k sched).1.length ≤ (100 - k) + 1 := by
  induction sched generalizing k with
  | nil => simp [MutexSpin.spin_wait]
  | cons a l ih =>
    by_cases hc : a = 1 ∧ k < 100
    · simp only [MutexSpin.spin_wait, if_pos hc, List.length_cons]
      have h2 := ih (k + 1)
      omega
    · simp only [MutexSpin.spin_wait, if_neg hc, List.length_singleton]
      omega

/-- The spin phase contributes nothing to any count of non-load events. -/
lemma spin_wait_countP_zero (p : MutexSpin.MEvent → Bool)
    (hp : ∀ v, p (MutexSpin.MEvent.load v .relaxed) = false)
    (k : Nat) (sched : List Nat) :
    (MutexSpin.spin_wait k sched).1.countP p = 0 := by
  rw [List.countP_eq_zero]
  intro e he
  obtain ⟨v, rfl⟩ := spin_wait_loads k sched e he
  simp [hp v]

/-- Every swap of the fallback loop writes 2 with acquire ordering. -/
lemma swap_park_swaps (l : List Nat) :
    ∀ x seen o, MutexSpin.MEvent.swap x seen o ∈ MutexSpin.swap_park l →
      x = 2 ∧ o = MemOrder.acquire := by
  induction l with
  | nil =>
    intro x seen o hmem
    simp [MutexSpin.swap_park] at hmem
  | cons a t ih =>
    intro x seen o hmem
    by_cases ha : a ≠ 0
    · simp only [MutexSpin.swap_park, if_pos ha, List.mem_cons] at hmem
      rcases hmem with h | h | h
      · cases h
        exact ⟨rfl, rfl⟩
      · cases h
      · exact ih x seen o h
    · simp only [MutexSpin.swap_park, if_neg ha, List.mem_cons,
        List.not_mem_nil, or_false] at hmem
      cases hmem
      exact ⟨rfl, rfl⟩

/-- In the fallback loop, the parks are exactly as many as the swaps that
observed a nonzero state: the loop repeats (parks) whenever the observed
value is not Unlocked. -/
lemma swap_park_parks (l : List Nat) :
    (MutexSpin.swap_park l).countP MutexSpin.isPark =
      (MutexSpin.swap_park l).countP MutexSpin.isNonzeroSwap := by
  induction l with
  | nil => rfl
  | cons a t ih =>
    by_cases ha : a = 0
    · simp [MutexSpin.swap_park, ha, MutexSpin.isPark, MutexSpin.isNonzeroSwap,
        List.countP_cons]
    · simp [MutexSpin.swap_park, ha, MutexSpin.isPark, MutexSpin.isNonzeroSwap,
        List.countP_cons, ih]

/-- The fallback loop performs no CAS. -/
lemma swap_park_no_cas (l : List Nat) :
    (MutexSpin.swap_park l).countP MutexSpin.isCas = 0 := by
  induction l with
  | nil => rfl
  | cons a t ih =>
    by_cases ha : a = 0 <;>
      simp [MutexSpin.swap_park, ha, MutexSpin.isCas, List.countP_cons, ih]

/-- C2 amended: Mutex::lock first attempts a CAS of the state from 0 to 1
(acquire on success, relaxed on failure); on failure lock_contended spins
with relaxed loads, not CAS attempts, while it observes 1 (at most 100
iterations, hence at most 101 loads, all but the last observing 1), then
retries the same CAS at most once, then falls back to swapping the state to
2 (acquire) and parking on value 2, parking exactly as often as the swap
observes a nonzero state. -/
theorem mutex_lock_contended_amended (sched : List Nat) :
    (∀ e ∈ (MutexSpin.spin_wait 0 sched).1, ∃ v, e = MutexSpin.MEvent.load v .relaxed)
  ∧ (∀ e ∈ (MutexSpin.spin_wait 0 sched).1.dropLast,
      e = MutexSpin.MEvent.load 1 .relaxed)
  ∧ (MutexSpin.spin_wait 0 sched).1.length ≤ 101
  ∧ (MutexSpin.lock_contended sched).countP MutexSpin.isCas ≤ 1
  ∧ (∀ x seen o, MutexSpin.MEvent.swap x seen o ∈ MutexSpin.lock_contended sched →
      x = 2 ∧ o = MemOrder.acquire)
  ∧ (MutexSpin.lock_contended sched).countP MutexSpin.isPark =
      (MutexSpin.lock_contended sched).countP MutexSpin.isNonzeroSwap
  ∧ (∀ seen rest, sched = seen :: rest →
      (seen = 0 → MutexSpin.lock sched =
        [MutexSpin.MEvent.cas 0 1 0 .acquire .relaxed true]) ∧
      (seen ≠ 0 → MutexSpin.lock sched =
        MutexSpin.MEvent.cas 0 1 seen .acquire .relaxed false ::
          MutexSpin.lock_contended rest)) := by
  have hloadCas : ∀ v, MutexSpin.isCas (MutexSpin.MEvent.load v .relaxed) = false :=
    fun _ => rfl
  have hloadPark : ∀ v, MutexSpin.isPark (MutexSpin.MEvent.load v .relaxed) = false :=
    fun _ => rfl
  have hloadNz : ∀ v, MutexSpin.isNonzeroSwap (MutexSpin.MEvent.load v .relaxed) = false :=
    fun _ => rfl
  refine ⟨spin_wait_loads 0 sched, spin_wait_dropLast 0 sched,
    by have := spin_wait_length 0 sched; omega, ?_, ?_, ?_, ?_⟩
  · cases hrest : (MutexSpin.spin_wait 0 sched).2 with
    | nil =>
      simp only [MutexSpin.lock_contended, hrest]
      have h0 := spin_wait_countP_zero MutexSpin.isCas hloadCas 0 sched
      omega
    | cons seen r =>
      have h0 := spin_wait_countP_zero MutexSpin.isCas hloadCas 0 sched
      have h1 := swap_park_no_cas r
      by_cases hz : seen = 0 <;>
        simp [MutexSpin.lock_contended, hrest, hz, List.countP_append,
          List.countP_cons, MutexSpin.isCas, h0, h1]
  · intro x seen o hmem
    cases hrest : (MutexSpin.spin_wait 0 sched).2 with
    | nil =>
      simp only [MutexSpin.lock_contended, hrest] at hmem
      obtain ⟨v, hv⟩ := spin_wait_loads 0 sched _ hmem
      cases hv
    | cons s0 r =>
      by_cases hz : s0 = 0
      · simp only [MutexSpin.lock_contended, hrest, if_pos hz,
          List.mem_append, List.mem_cons, List.not_mem_nil, or_false] at hmem
        rcases hmem with h | h
        · obtain ⟨v, hv⟩ := spin_wait_loads 0 sched _ h
          cases hv
        · cases h
      · simp only [MutexSpin.lock_contended, hrest, if_neg hz,
          List.mem_append, List.mem_cons] at hmem
        rcases hmem with h | h | h
        · obtain ⟨v, hv⟩ := spin_wait_loads 0 sched _ h
          cases hv
        · cases h
        · exact swap_park_swaps r x seen o h
  · cases hrest : (MutexSpin.spin_wait 0 sched).2 with
    | nil =>
      simp only [MutexSpin.lock_contended, hrest]
      rw [spin_wait_countP_zero MutexSpin.isPark hloadPark 0 sched,
        spin_wait_countP_zero MutexSpin.isNonzeroSwap hloadNz 0 sched]
    | cons s0 r =>
      have hp0 := spin_wait_countP_zero MutexSpin.isPark hloadPark 0 sched
      have hn0 := spin_wait_countP_zero MutexSpin.isNonzeroSwap hloadNz 0 sched
      have hsp := swap_park_parks r
      by_cases hz : s0 = 0 <;>
        simp [MutexSpin.lock_contended, hrest, hz, List.countP_append,
          List.countP_cons, MutexSpin.isPark, MutexSpin.isNonzeroSwap, hp0, hn0, hsp]
  · intro seen rest hsched
    subst hsched
    constructor
    · intro hz
      subst hz
      simp [MutexSpin.lock]
    · intro hz
      simp [MutexSpin.lock, hz]

theorem mutex_lock_contended_amended_witness :
    ((2 : Nat) = 2 ∧ MemOrder.acquire = MemOrder.acquire)
  ∧ (MutexSpin.lock_contended [1, 2, 2, 0]).countP MutexSpin.isCas ≤ 1 :=
  ⟨(mutex_lock_contended_amended [1, 2, 2, 0]).2.2.2.2.1 2 0 MemOrder.acquire
      (by decide),
   (mutex_lock_contended_amended [1, 2, 2, 0]).2.2.2.1⟩

/-- C2 counterexample: with the state observed as 1, 1, 0, 0 at successive
atomic accesses, the contended path of the code performs three relaxed loads
and then a single successful CAS, while the claimed protocol, whose bounded
spin iterations each retry the CAS, performs three CAS attempts; the traces
differ, and the code performs exactly one CAS in total. -/
theorem mutex_spin_claim_counterexample :
    MutexSpin.lock_contended [1, 1, 0, 0] =
      [.load 1 .relaxed, .load 1 .relaxed, .load 0 .relaxed,
       .cas 0 1 0 .acquire .relaxed true]
  ∧ MutexSpin.lock_contended_claim 0 [1, 1, 0, 0] =
      [.cas 0 1 1 .acquire .relaxed false, .cas 0 1 1 .acquire .relaxed false,
       .cas 0 1 0 .acquire .relaxed true]
  ∧ MutexSpin.lock_contended [1, 1, 0, 0] ≠
      MutexSpin.lock_contended_claim 0 [1, 1, 0, 0]
  ∧ (MutexSpin.lock_contended [1, 1, 0, 0]).countP MutexSpin.isCas = 1 := by
  refine ⟨?_, ?_, ?_, ?_⟩ <;> decide

/-- Any single write to the mutex state word lands in {0, 1, 2}. -/
lemma mutexStep_closed {a b : Nat} (h : MutexSpin.MutexStep a b) :
    b = 0 ∨ b = 1 ∨ b = 2 := by
  cases h with
  | lockCas => simp
  | parkSwap => simp
  | unlockSwap => simp

/-- C10: the mutex state word only ever holds one of 0 (Unlocked),
1 (LockedNoWaiters) or 2 (LockedWithWaiters): new initializes it to 0, and
every write performed by lock, lock_contended and the guard drop produces
only 1, 2 or 0, so every state reachable from the initial one is in
{0, 1, 2}. -/
theorem mutex_state_invariant (s : Nat)
    (h : Relation.ReflTransGen MutexSpin.MutexStep 0 s) :
    s = 0 ∨ s = 1 ∨ s = 2 := by
  induction h with
  | refl => left; rfl
  | tail _ hstep _ => exact mutexStep_closed hstep

theorem mutex_state_invariant_witness :
    (2 : Nat) = 0 ∨ (2 : Nat) = 1 ∨ (2 : Nat) = 2 :=
  mutex_state_invariant 2
    (Relation.ReflTransGen.single (MutexSpin.MutexStep.parkSwap 0))

end RustAtomics
